import Mathlib

/-!
Provider repository

Shallow embedding of the provider entity (pkg/service/domain/provider.go) and of
its SQL repository (pkg/service/provider/sql_respository.go).

The repository talks to a relational table through a gorm v1 handle
(github.com/jinzhu/gorm).  The handle is embedded as a value: the rows of the
provider table, the auto-increment counter and the Unscoped flag of the handle.
Every repository method takes

* the handle it runs against,
* fault: the error the database driver reports for the statement of this call
  (none when the statement executes),
* clock: the successive readings of time.Now() during the call (clock 0 is
  the first reading, clock 1 the second),

and returns what the Go method returns, together with the handle after the
statement for the three methods that write.  Calls to the logging sink have no
effect on returned values or on the table and are left out; the context argument
is never read by the Go code and is left out as well.
-/

/-- Instants produced by time.Now(), counted in nanoseconds. -/
abbrev Time := Int

/-- Modelled from the spec: the constructor ErrNotFound stands for
domain.ErrNotFound, declared in package domain outside the files at hand; the
spec describes it as the distinguished domain-level error for "no active record
matched the lookup key", distinct from every storage error.  The other two
constructors are storage errors: ErrRecordNotFound is gorm.ErrRecordNotFound and
other is any other atomic error value (driver, constraint or connection
failure). -/
inductive ErrValue where
  | ErrNotFound
  | ErrRecordNotFound
  | other (msg : String)
  deriving DecidableEq, Repr

/-- Values of the Go error interface seen by the repository: one atomic error, or
a gorm.Errors collection. -/
inductive GoError where
  | plain (e : ErrValue)
  | gormErrors (es : List ErrValue)
  deriving DecidableEq, Repr

namespace domain

/-- Provider entity (provider.go, lines 5-9). -/
structure Provider where
  UUID : String
  ShortName : String
  LongName : String
  deriving DecidableEq, Repr

/-- Modelled from the spec: the sentinel domain.ErrNotFound, whose declaration is
in package domain outside the files at hand. -/
def ErrNotFound : GoError := GoError.plain ErrValue.ErrNotFound

end domain

namespace provider

/-- ProviderSQLModel (sql_respository.go, lines 14-22); DeletedAt is a nullable
pointer, none standing for nil. -/
structure ProviderSQLModel where
  ID : Nat
  UUID : String
  ShortName : String
  LongName : String
  CreatedAt : Time
  UpdatedAt : Time
  DeletedAt : Option Time
  deriving DecidableEq, Repr

/-- Conversion toProvider (lines 29-35). -/
def ProviderSQLModel.toProvider (pm : ProviderSQLModel) : domain.Provider :=
  { UUID := pm.UUID, ShortName := pm.ShortName, LongName := pm.LongName }

end provider

namespace gorm

open provider

/-- The sentinel gorm.ErrRecordNotFound. -/
def ErrRecordNotFound : GoError := GoError.plain ErrValue.ErrRecordNotFound

/-- gorm.IsRecordNotFoundError: true for ErrRecordNotFound itself and for a
gorm.Errors collection holding it. -/
def IsRecordNotFoundError : GoError → Bool
  | GoError.gormErrors es => es.any fun e => e == ErrValue.ErrRecordNotFound
  | GoError.plain e => e == ErrValue.ErrRecordNotFound

/-- A gorm handle on the provider table: the rows, the next auto-increment id, and
the Unscoped flag of the handle (false for a handle as opened, true after
db.Unscoped()). -/
structure DB where
  table : List ProviderSQLModel
  autoIncrement : Nat
  Unscoped : Bool
  deriving DecidableEq, Repr

/-- Row selection of a statement (whereSQL in scope.go of gorm): the conditions
given to Where, preceded by "provider.deleted_at IS NULL", which gorm adds to
every query, update and delete on a model that has a DeletedAt field, unless the
handle is Unscoped.  ProviderSQLModel has that field. -/
def DB.scope (db : DB) (cond : ProviderSQLModel → Bool) (r : ProviderSQLModel) : Bool :=
  (db.Unscoped || r.DeletedAt.isNone) && cond r

/-- Create: INSERT of the value; a blank (zero) primary key is assigned by the
database.  CreatedAt and UpdatedAt are stored as given, since gorm fills them
only when blank and a reading of time.Now() never is.  A statement that fails
(a violated unique index on uuid, a lost connection) is rolled back and leaves
the table as it was. -/
def Create (db : DB) (fault : Option GoError) (value : ProviderSQLModel) :
    DB × Option GoError :=
  match fault with
  | some err => (db, some err)
  | none =>
    if value.ID = 0 then
      ({ db with
          table := db.table ++ [{ value with ID := db.autoIncrement }]
          autoIncrement := db.autoIncrement + 1 }, none)
    else
      ({ db with
          table := db.table ++ [value]
          autoIncrement := max db.autoIncrement (value.ID + 1) }, none)

/-- Updates on Model(&ProviderSQLModel{}) with a map of short_name, long_name and
updated_at: one UPDATE of the selected rows.  Zero rows selected is not an
error: gorm only counts RowsAffected, and raises ErrRecordNotFound nowhere on
the update path.  The update-timestamp hook of gorm (callback_update.go) sets
updated_at to its own reading nowFunc, after the map has been applied. -/
def Updates (db : DB) (fault : Option GoError) (cond : ProviderSQLModel → Bool)
    (short_name long_name : String) (updated_at nowFunc : Time) : DB × Option GoError :=
  match fault with
  | some err => (db, some err)
  | none =>
    ({ db with
        table := db.table.map fun r =>
          if db.scope cond r then
            { { r with ShortName := short_name, LongName := long_name, UpdatedAt := updated_at }
              with UpdatedAt := nowFunc }
          else r }, none)

/-- Delete (deleteCallback in callback_delete.go of gorm): for a model with a
DeletedAt field gorm issues UPDATE ... SET deleted_at = now on the selected
rows; on an Unscoped handle it issues DELETE FROM on the rows meeting the
conditions.  Zero rows selected is not an error. -/
def Delete (db : DB) (fault : Option GoError) (cond : ProviderSQLModel → Bool)
    (nowFunc : Time) : DB × Option GoError :=
  match fault with
  | some err => (db, some err)
  | none =>
    if db.Unscoped then
      ({ db with table := db.table.filter fun r => !cond r }, none)
    else
      ({ db with
          table := db.table.map fun r =>
            if db.scope cond r then { r with DeletedAt := some nowFunc } else r }, none)

/-- Row of least primary key (ORDER BY id LIMIT 1). -/
def minByID : List ProviderSQLModel → Option ProviderSQLModel
  | [] => none
  | r :: rs =>
    match minByID rs with
    | none => some r
    | some r' => if r.ID ≤ r'.ID then some r else some r'

/-- First into a struct (queryCallback in callback_query.go of gorm): the selected
row of least primary key, or ErrRecordNotFound when no row is selected. -/
def First (db : DB) (fault : Option GoError) (cond : ProviderSQLModel → Bool) :
    Except GoError ProviderSQLModel :=
  match fault with
  | some err => Except.error err
  | none =>
    match minByID (db.table.filter (db.scope cond)) with
    | none => Except.error ErrRecordNotFound
    | some pm => Except.ok pm

/-- Find into a slice, with the optional LIMIT of the query: the selected rows in
table order, an empty slice and no error when there is none (gorm raises
ErrRecordNotFound only when the destination is a struct). -/
def Find (db : DB) (fault : Option GoError) (limit : Option Int) :
    Except GoError (List ProviderSQLModel) :=
  match fault with
  | some err => Except.error err
  | none =>
    match limit with
    | none => Except.ok (db.table.filter (db.scope fun _ => true))
    | some n => Except.ok ((db.table.filter (db.scope fun _ => true)).take n.toNat)

end gorm

namespace provider

open gorm

/-- The record literal that CreateProvider builds (lines 51-58): the two
timestamps come from two successive calls of time.Now(). -/
def CreateProvider.value (clock : Nat → Time) (p : domain.Provider) : ProviderSQLModel :=
  { ID := 0
    UUID := p.UUID
    ShortName := p.ShortName
    LongName := p.LongName
    CreatedAt := clock 0
    UpdatedAt := clock 1
    DeletedAt := none }

/-- CreateProvider (lines 50-63). -/
def CreateProvider (db : DB) (fault : Option GoError) (clock : Nat → Time)
    (p : domain.Provider) : DB × Option GoError :=
  match Create db fault (CreateProvider.value clock p) with
  | (db', some err) => (db', some err)
  | (db', none) => (db', none)

/-- UpdateProvider (lines 66-83). -/
def UpdateProvider (db : DB) (fault : Option GoError) (clock : Nat → Time)
    (p : domain.Provider) : DB × Option GoError :=
  match Updates db fault (fun r => r.UUID == p.UUID && r.DeletedAt.isNone)
      p.ShortName p.LongName (clock 0) (clock 1) with
  | (db', some err) =>
    if IsRecordNotFoundError err then (db', some domain.ErrNotFound)
    else (db', some err)
  | (db', none) => (db', none)

/-- DeleteProviderByUUID (lines 86-92). -/
def DeleteProviderByUUID (db : DB) (fault : Option GoError) (clock : Nat → Time)
    (uuid : String) : DB × Option GoError :=
  match Delete db fault (fun r => r.UUID == uuid) (clock 0) with
  | (db', some err) => (db', some err)
  | (db', none) => (db', none)

/-- GetProviderByUUID (lines 95-106); the first component is the returned
pointer, none standing for nil. -/
def GetProviderByUUID (db : DB) (fault : Option GoError) (uuid : String) :
    Option domain.Provider × Option GoError :=
  match First db fault (fun r => r.UUID == uuid && r.DeletedAt.isNone) with
  | Except.error err =>
    if IsRecordNotFoundError err then (none, some domain.ErrNotFound)
    else (none, some err)
  | Except.ok pm => (some pm.toProvider, none)

/-- GetProviderByShortName (lines 109-120). -/
def GetProviderByShortName (db : DB) (fault : Option GoError) (shortName : String) :
    Option domain.Provider × Option GoError :=
  match First db fault (fun r => r.ShortName == shortName && r.DeletedAt.isNone) with
  | Except.error err =>
    if IsRecordNotFoundError err then (none, some domain.ErrNotFound)
    else (none, some err)
  | Except.ok pm => (some pm.toProvider, none)

/-- GetProviders (lines 123-145); the first component is the returned slice, none
standing for the nil slice and some [] for the empty non-nil slice. -/
def GetProviders (db : DB) (fault : Option GoError) (limit : Int) :
    Option (List domain.Provider) × Option GoError :=
  let query : Option Int := if limit > 0 then some limit else none
  match Find db fault query with
  | Except.error err =>
    if IsRecordNotFoundError err then (none, none)
    else (none, some err)
  | Except.ok pms =>
    (some (pms.foldl
      (fun results pm =>
        results ++ [{ UUID := pm.UUID, ShortName := pm.ShortName, LongName := pm.LongName }])
      []), none)

/-- An empty provider table behind a handle as opened. -/
def emptyDB : DB := { table := [], autoIncrement := 1, Unscoped := false }

/-- The provider of the worked example. -/
def acme : domain.Provider := { UUID := "u1", ShortName := "acme", LongName := "Acme Corp" }

/-- A clock whose n-th reading is n. -/
def tickingClock : Nat → Time := fun n => (n : Int)

/-- A store holding acme as its single, active record. -/
def acmeDB : DB :=
  { table := [{ ID := 1, UUID := "u1", ShortName := "acme", LongName := "Acme Corp",
                CreatedAt := 0, UpdatedAt := 1, DeletedAt := none }]
    autoIncrement := 2
    Unscoped := false }

/-- The store reached from the empty one by creating acme and then deleting "u1"
through a handle as opened. -/
def deletedAcmeDB : DB :=
  (DeleteProviderByUUID (CreateProvider emptyDB none tickingClock acme).1 none tickingClock "u1").1

/-- A store with two active records and one soft-deleted record. -/
def mixedDB : DB :=
  { table :=
      [{ ID := 1, UUID := "u1", ShortName := "acme", LongName := "Acme Corp",
         CreatedAt := 0, UpdatedAt := 1, DeletedAt := none },
       { ID := 2, UUID := "u2", ShortName := "bolt", LongName := "Bolt Inc",
         CreatedAt := 2, UpdatedAt := 3, DeletedAt := some 9 },
       { ID := 3, UUID := "u3", ShortName := "core", LongName := "Core Co",
         CreatedAt := 4, UpdatedAt := 5, DeletedAt := none }]
    autoIncrement := 4
    Unscoped := false }

end provider

namespace gorm

open provider

theorem minByID_mem : ∀ (l : List ProviderSQLModel) (r : ProviderSQLModel),
    minByID l = some r → r ∈ l
  | [], r, h => by simp [minByID] at h
  | a :: rs, r, h => by
    unfold minByID at h
    cases hrec : minByID rs with
    | none =>
      rw [hrec] at h
      simp at h
      simp [h]
    | some r' =>
      rw [hrec] at h
      have ih := minByID_mem rs r' hrec
      by_cases hle : a.ID ≤ r'.ID
      · simp [hle] at h
        simp [h]
      · simp [hle] at h
        subst h
        simp [ih]

theorem minByID_eq_none : ∀ (l : List ProviderSQLModel), minByID l = none → l = []
  | [], _ => rfl
  | a :: rs, h => by
    unfold minByID at h
    cases hrec : minByID rs with
    | none => rw [hrec] at h; simp at h
    | some r' =>
      rw [hrec] at h
      by_cases hle : a.ID ≤ r'.ID <;> simp [hle] at h

/-- When no row is selected, First reports ErrRecordNotFound. -/
theorem First_of_none_selected (db : DB) (cond : ProviderSQLModel → Bool)
    (h : ∀ r ∈ db.table, db.scope cond r = false) :
    First db none cond = Except.error ErrRecordNotFound := by
  have hnil : db.table.filter (db.scope cond) = [] := by
    rw [List.filter_eq_nil_iff]
    intro r hr
    simp [h r hr]
  simp [First, hnil, minByID]

/-- When some row is selected, First returns a selected row of the table. -/
theorem First_of_some_selected (db : DB) (cond : ProviderSQLModel → Bool)
    (h : ∃ r ∈ db.table, db.scope cond r = true) :
    ∃ pm, First db none cond = Except.ok pm ∧ pm ∈ db.table ∧ db.scope cond pm = true := by
  obtain ⟨r, hr, hs⟩ := h
  cases hmin : minByID (db.table.filter (db.scope cond)) with
  | none =>
    have hnil := minByID_eq_none _ hmin
    have hmem : r ∈ db.table.filter (db.scope cond) := List.mem_filter.mpr ⟨hr, hs⟩
    rw [hnil] at hmem
    simp at hmem
  | some pm =>
    have hmem := List.mem_filter.mp (minByID_mem _ _ hmin)
    exact ⟨pm, by simp [First, hmin], hmem.1, hmem.2⟩

end gorm

namespace provider

open gorm

theorem ErrRecordNotFound_isRecordNotFound : IsRecordNotFoundError ErrRecordNotFound = true := by
  decide

/-- A lookup by UUID that selects no row yields (nil, ErrNotFound). -/
theorem GetProviderByUUID_of_none_active (db : DB) (uuid : String)
    (h : ∀ r ∈ db.table, r.DeletedAt = none → r.UUID ≠ uuid) :
    GetProviderByUUID db none uuid = (none, some domain.ErrNotFound) := by
  have hsel : ∀ r ∈ db.table,
      db.scope (fun r => r.UUID == uuid && r.DeletedAt.isNone) r = false := by
    intro r hr
    cases hd : r.DeletedAt with
    | none => simp [DB.scope, hd, h r hr hd]
    | some t => simp [DB.scope, hd]
  simp [GetProviderByUUID, First_of_none_selected db _ hsel, ErrRecordNotFound_isRecordNotFound]

/-- A lookup by UUID that selects some row yields the conversion of a selected row. -/
theorem GetProviderByUUID_of_some_active (db : DB) (uuid : String)
    (h : ∃ r ∈ db.table, r.UUID = uuid ∧ r.DeletedAt = none) :
    ∃ pm ∈ db.table, pm.UUID = uuid ∧ pm.DeletedAt = none ∧
      GetProviderByUUID db none uuid = (some pm.toProvider, none) := by
  have hsel : ∃ r ∈ db.table,
      db.scope (fun r => r.UUID == uuid && r.DeletedAt.isNone) r = true := by
    obtain ⟨r, hr, hu, hd⟩ := h
    exact ⟨r, hr, by simp [DB.scope, hu, hd]⟩
  obtain ⟨pm, hfirst, hmem, hs⟩ := First_of_some_selected db _ hsel
  refine ⟨pm, hmem, ?_, ?_, ?_⟩
  · simp [DB.scope] at hs
    exact hs.2.1
  · simp [DB.scope] at hs
    exact hs.2.2
  · simp [GetProviderByUUID, hfirst]

/-- A write that reports no error ran without a driver fault. -/
theorem CreateProvider_ok_fault (db : DB) (fault : Option GoError) (clock : Nat → Time)
    (p : domain.Provider) (hok : (CreateProvider db fault clock p).2 = none) : fault = none := by
  cases fault with
  | none => rfl
  | some e => simp [CreateProvider, Create] at hok

/-- The table after a CreateProvider that ran: the old rows followed by the new
record under the next primary key. -/
theorem CreateProvider_table (db : DB) (clock : Nat → Time) (p : domain.Provider) :
    (CreateProvider db none clock p).1.table
      = db.table ++ [{ CreateProvider.value clock p with ID := db.autoIncrement }] := by
  simp [CreateProvider, Create, CreateProvider.value]

theorem UpdateProvider_ok_fault (db : DB) (fault : Option GoError) (clock : Nat → Time)
    (p : domain.Provider) (hok : (UpdateProvider db fault clock p).2 = none) : fault = none := by
  cases fault with
  | none => rfl
  | some e =>
    simp only [UpdateProvider, Updates] at hok
    split at hok <;> simp at hok

theorem DeleteProviderByUUID_ok_fault (db : DB) (fault : Option GoError) (clock : Nat → Time)
    (uuid : String) (hok : (DeleteProviderByUUID db fault clock uuid).2 = none) :
    fault = none := by
  cases fault with
  | none => rfl
  | some e => simp [DeleteProviderByUUID, Delete] at hok

/-- The table after an UpdateProvider that ran. -/
theorem UpdateProvider_table (db : DB) (clock : Nat → Time) (p : domain.Provider) :
    (UpdateProvider db none clock p).1.table
      = db.table.map fun r =>
          if db.scope (fun r => r.UUID == p.UUID && r.DeletedAt.isNone) r then
            { r with ShortName := p.ShortName, LongName := p.LongName, UpdatedAt := clock 1 }
          else r := by
  simp [UpdateProvider, Updates]

/-- C1. On a store holding no record with the UUID of p, a CreateProvider that
succeeds is followed by a GetProviderByUUID (whose query executes) that succeeds
and returns a provider with the UUID, ShortName and LongName of p. -/
theorem C1_create_then_get_by_uuid (db : DB) (fault : Option GoError) (clock : Nat → Time)
    (p : domain.Provider)
    (hfresh : ∀ r ∈ db.table, r.UUID ≠ p.UUID)
    (hok : (CreateProvider db fault clock p).2 = none) :
    ∃ q : domain.Provider,
      GetProviderByUUID (CreateProvider db fault clock p).1 none p.UUID = (some q, none) ∧
      q.UUID = p.UUID ∧ q.ShortName = p.ShortName ∧ q.LongName = p.LongName := by
  have hf := CreateProvider_ok_fault db fault clock p hok
  subst hf
  have hex : ∃ r ∈ (CreateProvider db none clock p).1.table, r.UUID = p.UUID ∧ r.DeletedAt = none := by
    rw [CreateProvider_table]
    exact ⟨_, List.mem_append_right _ (List.mem_singleton_self _), rfl, rfl⟩
  obtain ⟨pm, hmem, hu, _, hget⟩ := GetProviderByUUID_of_some_active _ _ hex
  rw [CreateProvider_table, List.mem_append, List.mem_singleton] at hmem
  rcases hmem with hold | hnew
  · exact absurd hu (hfresh pm hold)
  · refine ⟨pm.toProvider, hget, ?_, ?_, ?_⟩ <;>
      simp [hnew, ProviderSQLModel.toProvider, CreateProvider.value]

/-- C1 at the worked example: creating acme in an empty store, then fetching "u1". -/
theorem C1_create_then_get_by_uuid_witness :
    ∃ q : domain.Provider,
      GetProviderByUUID (CreateProvider emptyDB none tickingClock acme).1 none acme.UUID
        = (some q, none) ∧
      q.UUID = acme.UUID ∧ q.ShortName = acme.ShortName ∧ q.LongName = acme.LongName :=
  C1_create_then_get_by_uuid emptyDB none tickingClock acme (by decide) (by decide)

/-- C3. When the query executes and no active record has UUID k, GetProviderByUUID
returns (nil, domain.ErrNotFound); when no active record has ShortName k,
GetProviderByShortName returns (nil, domain.ErrNotFound); and that error is not
the record-not-found value of the storage layer. -/
theorem C3_lookup_of_missing_key_is_ErrNotFound (db : DB) (k : String) :
    ((∀ r ∈ db.table, r.DeletedAt = none → r.UUID ≠ k) →
      GetProviderByUUID db none k = (none, some domain.ErrNotFound)) ∧
    ((∀ r ∈ db.table, r.DeletedAt = none → r.ShortName ≠ k) →
      GetProviderByShortName db none k = (none, some domain.ErrNotFound)) ∧
    domain.ErrNotFound ≠ gorm.ErrRecordNotFound := by
  refine ⟨GetProviderByUUID_of_none_active db k, ?_, by decide⟩
  intro h
  have hsel : ∀ r ∈ db.table,
      db.scope (fun r => r.ShortName == k && r.DeletedAt.isNone) r = false := by
    intro r hr
    cases hd : r.DeletedAt with
    | none => simp [DB.scope, hd, h r hr hd]
    | some t => simp [DB.scope, hd]
  simp [GetProviderByShortName, First_of_none_selected db _ hsel,
    ErrRecordNotFound_isRecordNotFound]

/-- C3 at the key "missing" on a store that holds acme. -/
theorem C3_lookup_of_missing_key_is_ErrNotFound_witness :
    GetProviderByUUID acmeDB none "missing" = (none, some domain.ErrNotFound) ∧
    GetProviderByShortName acmeDB none "missing" = (none, some domain.ErrNotFound) :=
  ⟨(C3_lookup_of_missing_key_is_ErrNotFound acmeDB "missing").1 (by decide),
   (C3_lookup_of_missing_key_is_ErrNotFound acmeDB "missing").2.1 (by decide)⟩

/-- C4. After a DeleteProviderByUUID that succeeds, GetProviderByUUID for the same
UUID returns (nil, domain.ErrNotFound): on a handle as opened, where the delete
sets DeletedAt, and on an Unscoped handle, where the delete removes the rows;
whether or not a record with that UUID was there before. -/
theorem C4_delete_then_get_is_ErrNotFound (db : DB) (fault : Option GoError)
    (clock : Nat → Time) (u : String)
    (hok : (DeleteProviderByUUID db fault clock u).2 = none) :
    GetProviderByUUID (DeleteProviderByUUID db fault clock u).1 none u
      = (none, some domain.ErrNotFound) := by
  have hf := DeleteProviderByUUID_ok_fault db fault clock u hok
  subst hf
  apply GetProviderByUUID_of_none_active
  intro r hr hd
  cases hU : db.Unscoped with
  | true =>
    simp [DeleteProviderByUUID, Delete, hU] at hr
    exact hr.2
  | false =>
    simp only [DeleteProviderByUUID, Delete, hU, Bool.false_eq_true, if_false,
      List.mem_map] at hr
    obtain ⟨r0, _, hr0⟩ := hr
    by_cases hs : db.scope (fun r => r.UUID == u) r0 = true
    · rw [if_pos hs] at hr0
      subst hr0
      simp at hd
    · rw [if_neg hs] at hr0
      subst hr0
      intro hu
      apply hs
      simp [DB.scope, hd, hu]

/-- C4 on a store that holds acme: delete "u1", then fetch "u1". -/
theorem C4_delete_then_get_is_ErrNotFound_witness :
    GetProviderByUUID (DeleteProviderByUUID acmeDB none tickingClock "u1").1 none "u1"
      = (none, some domain.ErrNotFound) :=
  C4_delete_then_get_is_ErrNotFound acmeDB none tickingClock "u1" (by decide)

/-- C6. On a store holding an active record with UUID u, an UpdateProvider of
(u, s, l) that succeeds is followed by a GetProviderByUUID of u (whose query
executes) that returns the provider with UUID u, ShortName s and LongName l. -/
theorem C6_update_then_get_by_uuid (db : DB) (fault : Option GoError) (clock : Nat → Time)
    (u s l : String)
    (hactive : ∃ r ∈ db.table, r.UUID = u ∧ r.DeletedAt = none)
    (hok : (UpdateProvider db fault clock { UUID := u, ShortName := s, LongName := l }).2
      = none) :
    GetProviderByUUID
        (UpdateProvider db fault clock { UUID := u, ShortName := s, LongName := l }).1 none u
      = (some { UUID := u, ShortName := s, LongName := l }, none) := by
  have hf := UpdateProvider_ok_fault db fault clock _ hok
  subst hf
  have hex : ∃ r ∈ (UpdateProvider db none clock
      { UUID := u, ShortName := s, LongName := l }).1.table, r.UUID = u ∧ r.DeletedAt = none := by
    obtain ⟨r, hr, hu, hd⟩ := hactive
    rw [UpdateProvider_table]
    refine ⟨_, List.mem_map.mpr ⟨r, hr, rfl⟩, ?_, ?_⟩
    · simp [DB.scope, hu, hd]
    · simp [DB.scope, hu, hd]
  obtain ⟨pm, hmem, hu, hd, hget⟩ := GetProviderByUUID_of_some_active _ _ hex
  rw [hget]
  rw [UpdateProvider_table, List.mem_map] at hmem
  obtain ⟨r0, _, hr0⟩ := hmem
  by_cases hs : db.scope (fun r => r.UUID == u && r.DeletedAt.isNone) r0 = true
  · rw [if_pos hs] at hr0
    subst hr0
    simp only [ProviderSQLModel.toProvider] at hu ⊢
    rw [hu]
  · rw [if_neg hs] at hr0
    subst hr0
    exfalso
    apply hs
    simp [DB.scope, hu, hd]

/-- C6 on a store that holds acme: rename it, then fetch "u1". -/
theorem C6_update_then_get_by_uuid_witness :
    GetProviderByUUID
        (UpdateProvider acmeDB none tickingClock
          { UUID := "u1", ShortName := "apex", LongName := "Apex Ltd" }).1 none "u1"
      = (some { UUID := "u1", ShortName := "apex", LongName := "Apex Ltd" }, none) :=
  C6_update_then_get_by_uuid acmeDB none tickingClock "u1" "apex" "Apex Ltd"
    ⟨_, List.mem_singleton_self _, rfl, rfl⟩ (by decide)

/-- The loop of GetProviders appends one converted record per row. -/
theorem GetProviders_loop (pms : List ProviderSQLModel) (init : List domain.Provider) :
    pms.foldl
        (fun results pm =>
          results ++ [({ UUID := pm.UUID, ShortName := pm.ShortName, LongName := pm.LongName }
            : domain.Provider)])
        init
      = init ++ pms.map ProviderSQLModel.toProvider := by
  induction pms generalizing init with
  | nil => simp
  | cons pm rest ih => simp [List.foldl, ih, ProviderSQLModel.toProvider]

/-- UpdateProvider on a store with no active record of that UUID, when the
statement executes: the table is left as it was and the returned error is nil. -/
theorem UpdateProvider_of_none_active (db : DB) (clock : Nat → Time) (p : domain.Provider)
    (h : ∀ r ∈ db.table, r.DeletedAt = none → r.UUID ≠ p.UUID) :
    UpdateProvider db none clock p = (db, none) := by
  have hmap : (db.table.map fun r =>
      if db.scope (fun r => r.UUID == p.UUID && r.DeletedAt.isNone) r then
        ({ r with ShortName := p.ShortName, LongName := p.LongName, UpdatedAt := clock 1 }
          : ProviderSQLModel)
      else r) = db.table := by
    conv_rhs => rw [← List.map_id db.table]
    apply List.map_congr_left
    intro r hr
    cases hd : r.DeletedAt with
    | none => simp [DB.scope, hd, h r hr hd]
    | some t => simp [DB.scope, hd]
  simp [UpdateProvider, Updates, hmap]

/-- C2, evaluated on the code: the store that holds only acme has no active
record with UUID "u9", and UpdateProvider for "u9" returns a nil error, not
domain.ErrNotFound, leaving the store as it was; the same on the empty store. -/
theorem C2_update_of_missing_uuid_returns_nil :
    (∀ r ∈ acmeDB.table, r.DeletedAt = none → r.UUID ≠ "u9") ∧
    UpdateProvider acmeDB none tickingClock
        { UUID := "u9", ShortName := "nine", LongName := "Nine Ltd" } = (acmeDB, none) ∧
    (UpdateProvider acmeDB none tickingClock
        { UUID := "u9", ShortName := "nine", LongName := "Nine Ltd" }).2
      ≠ some domain.ErrNotFound ∧
    UpdateProvider emptyDB none tickingClock acme = (emptyDB, none) := by
  decide

/-- C5 as stated fails: after creating acme and deleting it through a handle as
opened, the store holds one record, yet GetProviders with limit 0 succeeds with
no provider, and with limit 5 it returns 0 providers, not min(5, 1). -/
theorem C5_counterexample :
    deletedAcmeDB.table.length = 1 ∧
    GetProviders deletedAcmeDB none 0 = (some [], none) ∧
    GetProviders deletedAcmeDB none 5 = (some [], none) := by
  decide

/-- C5, amended. When the query succeeds, GetProviders returns one provider for
each record the handle selects: the active records (DeletedAt nil) on a handle as
opened, every record on an Unscoped handle.  With limit <= 0 all of them are
returned; with limit = N > 0 the first N of them, so the length is the minimum of
N and their number. -/
theorem C5_get_providers_selected_records (db : DB) (limit : Int) :
    (limit ≤ 0 →
      GetProviders db none limit
        = (some ((db.table.filter fun r => db.Unscoped || r.DeletedAt.isNone).map
            ProviderSQLModel.toProvider), none)) ∧
    (0 < limit →
      ∃ ps, GetProviders db none limit = (some ps, none) ∧
        ps = ((db.table.filter fun r => db.Unscoped || r.DeletedAt.isNone).take
            limit.toNat).map ProviderSQLModel.toProvider ∧
        ps.length
          = min limit.toNat (db.table.filter fun r => db.Unscoped || r.DeletedAt.isNone).length ∧
        ps.length ≤ limit.toNat) ∧
    (db.Unscoped = true →
      (db.table.filter fun r => db.Unscoped || r.DeletedAt.isNone) = db.table) := by
  have hscope : (db.scope fun _ => true) = fun r => db.Unscoped || r.DeletedAt.isNone := by
    funext r
    simp [DB.scope]
  refine ⟨?_, ?_, ?_⟩
  · intro hle
    have hnot : ¬ limit > 0 := not_lt.mpr hle
    simp only [GetProviders, hnot, if_false, Find, hscope, GetProviders_loop, List.nil_append]
  · intro hpos
    have hgt : limit > 0 := hpos
    refine ⟨_, ?_, rfl, ?_, ?_⟩
    · simp only [GetProviders, hgt, if_true, Find, hscope, GetProviders_loop, List.nil_append]
    · simp [List.length_take]
    · simp [List.length_take]
  · intro hU
    simp [hU]

/-- C5, amended, on a store with two active and one soft-deleted record: limit 0
returns the two active ones, limit 1 returns one, and the Unscoped handle on the
same rows selects all three. -/
theorem C5_get_providers_selected_records_witness :
    GetProviders mixedDB none 0
      = (some [{ UUID := "u1", ShortName := "acme", LongName := "Acme Corp" },
               { UUID := "u3", ShortName := "core", LongName := "Core Co" }], none) ∧
    (∃ ps, GetProviders mixedDB none 1 = (some ps, none) ∧ ps.length = 1) ∧
    (({ mixedDB with Unscoped := true } : DB).table.filter
        fun r => ({ mixedDB with Unscoped := true } : DB).Unscoped || r.DeletedAt.isNone)
      = mixedDB.table :=
  ⟨(C5_get_providers_selected_records mixedDB 0).1 (by decide),
   (let ⟨ps, h1, _, h3, _⟩ := (C5_get_providers_selected_records mixedDB 1).2.1 (by decide)
    ⟨ps, h1, h3⟩),
   (C5_get_providers_selected_records { mixedDB with Unscoped := true } 0).2.2 rfl⟩

/-- C7 as stated fails: under a clock whose successive readings are 0 and 1, the
record CreateProvider builds for acme, and the row stored from it, have
CreatedAt = 0 and UpdatedAt = 1. -/
theorem C7_counterexample :
    (CreateProvider.value tickingClock acme).CreatedAt
      ≠ (CreateProvider.value tickingClock acme).UpdatedAt ∧
    (CreateProvider emptyDB none tickingClock acme).1.table
      = [{ ID := 1, UUID := "u1", ShortName := "acme", LongName := "Acme Corp",
           CreatedAt := 0, UpdatedAt := 1, DeletedAt := none }] := by
  decide

/-- C7, amended. The record CreateProvider hands to the store has CreatedAt equal
to the first reading of the clock and UpdatedAt equal to the second reading (so
the two are equal exactly when the two readings coincide), DeletedAt = nil, and
the UUID, ShortName and LongName of p; when the insert executes, that record is
the row appended to the table, under the primary key assigned by the store. -/
theorem C7_created_record (db : DB) (clock : Nat → Time) (p : domain.Provider) :
    (CreateProvider.value clock p).CreatedAt = clock 0 ∧
    (CreateProvider.value clock p).UpdatedAt = clock 1 ∧
    ((CreateProvider.value clock p).CreatedAt = (CreateProvider.value clock p).UpdatedAt
      ↔ clock 0 = clock 1) ∧
    (CreateProvider.value clock p).DeletedAt = none ∧
    (CreateProvider.value clock p).UUID = p.UUID ∧
    (CreateProvider.value clock p).ShortName = p.ShortName ∧
    (CreateProvider.value clock p).LongName = p.LongName ∧
    CreateProvider db none clock p
      = ({ db with
            table := db.table ++ [{ CreateProvider.value clock p with ID := db.autoIncrement }]
            autoIncrement := db.autoIncrement + 1 }, none) := by
  refine ⟨rfl, rfl, Iff.rfl, rfl, rfl, rfl, rfl, ?_⟩
  simp [CreateProvider, Create, CreateProvider.value]

/-- Rows already in the table keep their position and content under CreateProvider. -/
theorem CreateProvider_keeps_rows (db : DB) (fault : Option GoError) (clock : Nat → Time)
    (q : domain.Provider) (i : Nat) (r : ProviderSQLModel) (hi : db.table[i]? = some r) :
    (CreateProvider db fault clock q).1.table[i]? = some r := by
  cases fault with
  | some e => simpa [CreateProvider, Create] using hi
  | none =>
    have hlt : i < db.table.length := by
      by_contra hge
      rw [List.getElem?_eq_none (not_lt.mp hge)] at hi
      simp at hi
    rw [CreateProvider_table, List.getElem?_append_left hlt]
    exact hi

/-- Every row left by DeleteProviderByUUID agrees with a row of the old table on
id, UUID, ShortName, LongName, CreatedAt and UpdatedAt. -/
theorem DeleteProviderByUUID_keeps_columns (db : DB) (fault : Option GoError)
    (clock : Nat → Time) (uuid : String) (r' : ProviderSQLModel)
    (hr : r' ∈ (DeleteProviderByUUID db fault clock uuid).1.table) :
    ∃ r ∈ db.table, r'.ID = r.ID ∧ r'.UUID = r.UUID ∧ r'.ShortName = r.ShortName ∧
      r'.LongName = r.LongName ∧ r'.CreatedAt = r.CreatedAt ∧ r'.UpdatedAt = r.UpdatedAt := by
  cases fault with
  | some e =>
    simp only [DeleteProviderByUUID, Delete] at hr
    exact ⟨r', hr, rfl, rfl, rfl, rfl, rfl, rfl⟩
  | none =>
    cases hU : db.Unscoped with
    | true =>
      simp only [DeleteProviderByUUID, Delete, hU, if_true, List.mem_filter] at hr
      exact ⟨r', hr.1, rfl, rfl, rfl, rfl, rfl, rfl⟩
    | false =>
      simp only [DeleteProviderByUUID, Delete, hU, Bool.false_eq_true, if_false,
        List.mem_map] at hr
      obtain ⟨r0, hmem, hr0⟩ := hr
      refine ⟨r0, hmem, ?_⟩
      by_cases hs : db.scope (fun r => r.UUID == uuid) r0 = true
      · rw [if_pos hs] at hr0
        subst hr0
        exact ⟨rfl, rfl, rfl, rfl, rfl, rfl⟩
      · rw [if_neg hs] at hr0
        subst hr0
        exact ⟨rfl, rfl, rfl, rfl, rfl, rfl⟩

/-- C8. An UpdateProvider that succeeds keeps the number of records; position by
position, the record keeps its id, UUID, CreatedAt and DeletedAt; a record whose
UUID differs from p.UUID or whose DeletedAt is set is unchanged in all columns.
So at most ShortName, LongName and UpdatedAt of the active records with the UUID
of p change.  The other two writers leave every UUID alone as well:
CreateProvider keeps each existing record as it is, and each record left by
DeleteProviderByUUID carries the id and UUID of a record that was there. -/
theorem C8_update_frame (db : DB) (fault : Option GoError) (clock : Nat → Time)
    (p : domain.Provider) (hok : (UpdateProvider db fault clock p).2 = none) :
    (UpdateProvider db fault clock p).1.table.length = db.table.length ∧
    (∀ (i : Nat) (r : ProviderSQLModel), db.table[i]? = some r →
      ∃ r', (UpdateProvider db fault clock p).1.table[i]? = some r' ∧
        r'.ID = r.ID ∧ r'.UUID = r.UUID ∧ r'.CreatedAt = r.CreatedAt ∧
        r'.DeletedAt = r.DeletedAt ∧
        ((r.UUID ≠ p.UUID ∨ r.DeletedAt ≠ none) → r' = r)) ∧
    (∀ (f : Option GoError) (c : Nat → Time) (q : domain.Provider) (i : Nat)
        (r : ProviderSQLModel), db.table[i]? = some r →
      (CreateProvider db f c q).1.table[i]? = some r) ∧
    (∀ (f : Option GoError) (c : Nat → Time) (u : String),
      ∀ r' ∈ (DeleteProviderByUUID db f c u).1.table,
        ∃ r ∈ db.table, r'.ID = r.ID ∧ r'.UUID = r.UUID) := by
  have hf := UpdateProvider_ok_fault db fault clock p hok
  subst hf
  refine ⟨by simp [UpdateProvider_table], ?_, ?_, ?_⟩
  · intro i r hi
    rw [UpdateProvider_table, List.getElem?_map, hi]
    refine ⟨_, rfl, ?_⟩
    beta_reduce
    by_cases hs : db.scope (fun r => r.UUID == p.UUID && r.DeletedAt.isNone) r = true
    · rw [if_pos hs]
      refine ⟨rfl, rfl, rfl, rfl, ?_⟩
      intro hne
      exfalso
      simp [DB.scope] at hs
      rcases hne with h1 | h2
      · exact h1 hs.2.1
      · exact h2 hs.2.2
    · rw [if_neg hs]
      exact ⟨rfl, rfl, rfl, rfl, fun _ => rfl⟩
  · intro f c q i r hi
    exact CreateProvider_keeps_rows db f c q i r hi
  · intro f c u r' hr
    obtain ⟨r, hmem, hid, hu, _⟩ := DeleteProviderByUUID_keeps_columns db f c u r' hr
    exact ⟨r, hmem, hid, hu⟩

/-- C8 on the store with two active and one soft-deleted record, updating "u1":
the record count is kept; the active record "u1" at position 0 keeps its id,
UUID, CreatedAt and DeletedAt; the soft-deleted record "u2" at position 1 is
unchanged in all columns. -/
theorem C8_update_frame_witness :
    (UpdateProvider mixedDB none tickingClock
        { UUID := "u1", ShortName := "apex", LongName := "Apex Ltd" }).1.table.length
      = mixedDB.table.length ∧
    (∃ r', (UpdateProvider mixedDB none tickingClock
          { UUID := "u1", ShortName := "apex", LongName := "Apex Ltd" }).1.table[0]? = some r' ∧
        r'.ID = 1 ∧ r'.UUID = "u1" ∧ r'.CreatedAt = 0 ∧ r'.DeletedAt = none) ∧
    (∃ r', (UpdateProvider mixedDB none tickingClock
          { UUID := "u1", ShortName := "apex", LongName := "Apex Ltd" }).1.table[1]? = some r' ∧
        r' = { ID := 2, UUID := "u2", ShortName := "bolt", LongName := "Bolt Inc",
               CreatedAt := 2, UpdatedAt := 3, DeletedAt := some 9 }) :=
  ⟨(C8_update_frame mixedDB none tickingClock
      { UUID := "u1", ShortName := "apex", LongName := "Apex Ltd" } (by decide)).1,
   (let ⟨r', h, hid, hu, hc, hd, _⟩ :=
      (C8_update_frame mixedDB none tickingClock
        { UUID := "u1", ShortName := "apex", LongName := "Apex Ltd" } (by decide)).2.1 0
        { ID := 1, UUID := "u1", ShortName := "acme", LongName := "Acme Corp",
          CreatedAt := 0, UpdatedAt := 1, DeletedAt := none } rfl
    ⟨r', h, hid, hu, hc, hd⟩),
   (let ⟨r', h, _, _, _, _, hsame⟩ :=
      (C8_update_frame mixedDB none tickingClock
        { UUID := "u1", ShortName := "apex", LongName := "Apex Ltd" } (by decide)).2.1 1
        { ID := 2, UUID := "u2", ShortName := "bolt", LongName := "Bolt Inc",
          CreatedAt := 2, UpdatedAt := 3, DeletedAt := some 9 } rfl
    ⟨r', h, hsame (Or.inl (by decide))⟩)⟩

/-- C9. On a store with no records, when the query executes, GetProviders returns
the empty non-nil slice and a nil error, for every limit and every handle. -/
theorem C9_get_providers_empty_store (n : Nat) (unscoped : Bool) (limit : Int) :
    GetProviders { table := [], autoIncrement := n, Unscoped := unscoped } none limit
      = (some [], none) ∧
    (GetProviders { table := [], autoIncrement := n, Unscoped := unscoped } none limit).1
      ≠ none ∧
    (GetProviders { table := [], autoIncrement := n, Unscoped := unscoped } none limit).2
      = none := by
  have h : GetProviders { table := [], autoIncrement := n, Unscoped := unscoped } none limit
      = (some [], none) := by
    by_cases hl : limit > 0 <;> simp [GetProviders, Find, hl]
  simp [h]

/-- C10. When the statement fails with a storage error e that gorm does not
classify as record-not-found, each of the six operations returns e itself as its
error, and the three lookups return a nil value with it. -/
theorem C10_storage_error_returned_unchanged (db : DB) (clock : Nat → Time)
    (p : domain.Provider) (uuid shortName : String) (limit : Int) (e : GoError)
    (he : IsRecordNotFoundError e = false) :
    (CreateProvider db (some e) clock p).2 = some e ∧
    (UpdateProvider db (some e) clock p).2 = some e ∧
    (DeleteProviderByUUID db (some e) clock uuid).2 = some e ∧
    GetProviderByUUID db (some e) uuid = (none, some e) ∧
    GetProviderByShortName db (some e) shortName = (none, some e) ∧
    GetProviders db (some e) limit = (none, some e) := by
  refine ⟨?_, ?_, ?_, ?_, ?_, ?_⟩
  · simp [CreateProvider, Create]
  · simp [UpdateProvider, Updates, he]
  · simp [DeleteProviderByUUID, Delete]
  · simp [GetProviderByUUID, First, he]
  · simp [GetProviderByShortName, First, he]
  · simp [GetProviders, Find, he]

/-- C10 for a refused connection, on the store that holds acme. -/
theorem C10_storage_error_returned_unchanged_witness :
    (CreateProvider acmeDB (some (GoError.plain (ErrValue.other "connection refused")))
        tickingClock acme).2 = some (GoError.plain (ErrValue.other "connection refused")) ∧
    (UpdateProvider acmeDB (some (GoError.plain (ErrValue.other "connection refused")))
        tickingClock acme).2 = some (GoError.plain (ErrValue.other "connection refused")) ∧
    (DeleteProviderByUUID acmeDB (some (GoError.plain (ErrValue.other "connection refused")))
        tickingClock "u1").2 = some (GoError.plain (ErrValue.other "connection refused")) ∧
    GetProviderByUUID acmeDB (some (GoError.plain (ErrValue.other "connection refused"))) "u1"
      = (none, some (GoError.plain (ErrValue.other "connection refused"))) ∧
    GetProviderByShortName acmeDB (some (GoError.plain (ErrValue.other "connection refused")))
        "acme" = (none, some (GoError.plain (ErrValue.other "connection refused"))) ∧
    GetProviders acmeDB (some (GoError.plain (ErrValue.other "connection refused"))) 0
      = (none, some (GoError.plain (ErrValue.other "connection refused"))) :=
  C10_storage_error_returned_unchanged acmeDB tickingClock acme "u1" "acme" 0
    (GoError.plain (ErrValue.other "connection refused")) (by decide)

end provider
